import Mathlib

/-!
Verification of `telegramnewsjob.py` (Ultra-Optimized-Telegram-News-Bot).

This file is a shallow embedding of the parts of the script that the
specification's testable properties talk about:

* `DiscoveryEngine.discover`'s deduplication stage and backup fallback,
* `DeliveryEngine.send_post` (truncation + retry loop) and
  `DeliveryEngine.run` (failure log),
* the daily cache logic of `main`,
* `SignalEngine.enrich`,
* `Formatter.build_post`,
* the per-source fetchers and their error handling.

Modelling conventions:

* Python strings are Lean `String`s (which are lists of characters, matching
  Python's code-point semantics for `len` and slicing); where character-level
  reasoning is needed, message bodies are modelled as `List Char`.
* `hashlib.md5((title + url).encode()).hexdigest()` is a deterministic
  function of the concatenation `title ++ url`.  It is modelled by the
  concatenation itself (a collision-free stand-in): two candidates get the
  same fingerprint exactly when their `title ++ url` strings coincide, which
  is the behaviour of the script on all inputs that do not produce an MD5
  collision.
* Randomness (`random.choice`, `random.sample`, `random.uniform`) and
  external services (network fetches, `yfinance`, the transport) are
  modelled as explicit function parameters ("oracles"); theorems quantify
  over them.
* Exceptions are modelled with `Except String`: a Python function that can
  raise is a Lean function into `Except`, a `try/except` block is a `match`
  on such a value, placed exactly where the source places the handler.
-/

/-! ## Data model -/

/-- Candidate item produced by a fetcher: a `{title, url}` dict in the script. -/
structure Candidate where
  title : String
  url : String
deriving DecidableEq, Repr

/-- Fingerprint of a candidate: the script computes
`hashlib.md5((itm["title"] + itm["url"]).encode()).hexdigest()`.  MD5 is a
deterministic function of the concatenated string; it is modelled by the
concatenation itself (see the header comment). -/
def fingerprint (c : Candidate) : String :=
  c.title ++ c.url

/-! ## DiscoveryEngine.discover — deduplication and backup fallback
(`telegramnewsjob.py`, lines 457–492) -/

/-- BACKUP_HEADLINES from the script (the `company` key of the Python dicts is
never read by `discover`, so only `title` and `url` are modelled). -/
def BACKUP_HEADLINES : List Candidate :=
  [ ⟨"OpenAI Quietly Builds Next-Gen AI Infrastructure to Challenge Google", "https://techcrunch.com/ai"⟩,
    ⟨"India\x27s IT Giants Eye $50B AI Market Amid Global Tech Shifts", "https://economictimes.com/tech"⟩,
    ⟨"China\x27s Baidu Turbo-Charges Dragon AI to Compete with ChatGPT", "https://technode.com/ai"⟩,
    ⟨"Meta Silently Fires 2,000 Engineers While Doubling AI Investment", "https://theverge.com/meta"⟩,
    ⟨"Microsoft Replaces Human Customer Service with GPT-Powered Bots", "https://venturebeat.com/ai"⟩,
    ⟨"Nvidia Explodes Past $2 Trillion Valuation on AI Chip Demand", "https://wired.com/nvidia"⟩,
    ⟨"TCS Shuts Down Legacy Systems, Goes All-In on AI Automation", "https://inc42.com/tcs"⟩,
    ⟨"Tesla\x27s FSD AI Quietly Replaces Human Drivers in Beta Cities", "https://futurism.com/tesla"⟩ ]

/-- Deduplication loop of `discover` (lines 457–473): walk the pool keeping
three seen-sets (titles, urls, fingerprints); keep an item only if none of its
three keys has been seen.  Returns the kept items together with the final
seen-fingerprint set (which the backup fallback goes on using).  Python's
`set` is modelled as a list used only through membership. -/
def dedupGo : List Candidate → List String → List String → List String →
    List Candidate × List String
  | [], _, _, seenH => ([], seenH)
  | itm :: rest, seenT, seenU, seenH =>
    if itm.title ∈ seenT ∨ itm.url ∈ seenU ∨ fingerprint itm ∈ seenH then
      dedupGo rest seenT seenU seenH
    else
      let r := dedupGo rest (itm.title :: seenT) (itm.url :: seenU)
        (fingerprint itm :: seenH)
      (itm :: r.1, r.2)

/-- Backup fallback loop of `discover` (lines 478–486): for each backup item,
if its fingerprint is unseen, append it and record the fingerprint; after each
iteration stop as soon as the list holds 10 items. -/
def backupGo : List Candidate → List Candidate → List String → List Candidate
  | [], deduped, _ => deduped
  | b :: rest, deduped, seenH =>
    if fingerprint b ∈ seenH then
      if 10 ≤ deduped.length then deduped else backupGo rest deduped seenH
    else
      if 10 ≤ (deduped ++ [b]).length then deduped ++ [b]
      else backupGo rest (deduped ++ [b]) (fingerprint b :: seenH)

/-- Deduplication stage of `DiscoveryEngine.discover` (lines 457–492): dedupe
the pool, fall back to `BACKUP_HEADLINES` when fewer than 5 unique items
survive, and return at most the first 50 items. -/
def discover (pool : List Candidate) : List Candidate :=
  let r := dedupGo pool [] [] []
  let deduped := if r.1.length < 5 then backupGo BACKUP_HEADLINES r.1 r.2 else r.1
  deduped.take 50

/-- Modelled from the spec claim wording (C2): "appends entries from the fixed
backup list in order, skipping exactly those backup entries whose fingerprint
is already in the seen-fingerprint set, and stops as soon as the list reaches
10 total entries or the backup list is exhausted".  Stated as its own function
to be compared against the code's `backupGo`. -/
def specFallback : List Candidate → List Candidate → List String → List Candidate
  | [], acc, _ => acc
  | b :: rest, acc, seen =>
    if 10 ≤ acc.length then acc
    else if fingerprint b ∈ seen then specFallback rest acc seen
    else specFallback rest (acc ++ [b]) (fingerprint b :: seen)

/-! ## DeliveryEngine.send_post (lines 891–906) and DeliveryEngine.run
(lines 908–926).

Message bodies are modelled as `List Char` (Python strings index by code
point).  The transport call `bot.send_message` is an oracle
`tr : Nat → Bool` giving the success of each attempt; the jitter
`random.uniform(0, 3)` is an oracle `j : Nat → ℚ`. -/

/-- Truncation at the head of `send_post`:
`if len(text) > 4096: text = text[:4096 - 10] + "…"`. -/
def send_post_truncate (text : List Char) : List Char :=
  if 4096 < text.length then text.take (4096 - 10) ++ ['…'] else text

/-- Outcome of one `send_post` call: the returned boolean, the message text
passed to the transport on each attempt, and the delays slept between
attempts. -/
structure SendOutcome where
  ok : Bool
  texts : List (List Char)
  sleeps : List ℚ
deriving Repr

/-- Retry loop of `send_post`: `while attempts < 3`, try the transport; on
failure sleep `delay + random.uniform(0, 3)` and double `delay`.  `fuel` is
`3 - attempts`, so the loop is run with `fuel = 3`. -/
def sendLoop (tr : Nat → Bool) (j : Nat → ℚ) (text : List Char) :
    Nat → Nat → ℚ → SendOutcome
  | 0, _, _ => ⟨false, [], []⟩
  | fuel + 1, attempts, delay =>
    if tr attempts then ⟨true, [text], []⟩
    else
      let r := sendLoop tr j text fuel (attempts + 1) (delay * 2)
      ⟨r.ok, text :: r.texts, (delay + j attempts) :: r.sleeps⟩

/-- `DeliveryEngine.send_post`: truncate, then retry up to 3 times starting
from a 5-second base delay. -/
def send_post (tr : Nat → Bool) (j : Nat → ℚ) (text : List Char) : SendOutcome :=
  sendLoop tr j (send_post_truncate text) 3 0 5

/-- Message loop of `DeliveryEngine.run`: send each message in order,
collecting the ones whose `send_post` returned `False`.  The transport oracle
`tr` and jitter oracle `j` are indexed by the message's position in the batch.
Returns (messages attempted, failed messages). -/
def runGo (tr : Nat → Nat → Bool) (j : Nat → Nat → ℚ) :
    List (List Char) → Nat → List (List Char) × List (List Char)
  | [], _ => ([], [])
  | m :: rest, i =>
    let ok := (send_post (tr i) (j i) m).ok
    let r := runGo tr j rest (i + 1)
    (m :: r.1, if ok then r.2 else m :: r.2)

/-- Result of `DeliveryEngine.run`: the attempted messages, the failed ones,
and the contents of `failed_posts.json` after the run (`prior` being its
contents before the run; the file is rewritten as `prior ++ failed` only when
some message failed). -/
structure RunOutcome where
  attempted : List (List Char)
  failed : List (List Char)
  failedLog : List (List Char)

/-- `DeliveryEngine.run` (lines 908–926). -/
def deliverRun (tr : Nat → Nat → Bool) (j : Nat → Nat → ℚ)
    (prior : List (List Char)) (messages : List (List Char)) : RunOutcome :=
  let r := runGo tr j messages 0
  ⟨r.1, r.2, if r.2 = [] then prior else prior ++ r.2⟩

/-! ## main — daily cache and pipeline (lines 930–977) -/

/-- POSTS_PER_DAY constant (line 60). -/
def POSTS_PER_DAY : Nat := 20

/-- Persisted daily cache: the JSON object `{date, titles}` in `cache.json`. -/
structure DailyCache where
  date : String
  titles : List String
deriving DecidableEq, Repr

/-- Observable result of one `main` run (delivery outcomes aside): the loaded
posted-titles set, the selected items, the cache written to disk, and the
formatted messages handed to the delivery engine. -/
structure RunResult where
  posted : List String
  selected : List Candidate
  savedCache : DailyCache
  messages : List String

/-- One run of `main` (lines 930–977), parametrised by the stored cache file
(`none` when `cache.json` does not exist), today's UTC date string, the items
returned by `discover`, and the formatting function `fmt` standing for
`formatter.build_post(signal.enrich(·))` with this run's random draws
(`enrich` is total, so every selected item yields a message and has its title
appended to the cache). -/
def mainRun (stored : Option DailyCache) (today : String)
    (rawItems : List Candidate) (fmt : Candidate → String) : RunResult :=
  let posted : List String :=
    match stored with
    | some c => if c.date = today then c.titles else []
    | none => []
  let newItems := rawItems.filter (fun i => i.title ∉ posted)
  let selected := newItems.take POSTS_PER_DAY
  let messages := selected.map fmt
  ⟨posted, selected, ⟨today, posted ++ selected.map (fun c => c.title)⟩, messages⟩

/-- Externally visible events of a run, in program order. -/
inductive RunEvent where
  | writeCache : DailyCache → RunEvent
  | send : String → RunEvent
deriving DecidableEq

/-- Event trace of `main`: the cache file is written (line 970) before
`deliver.run(messages)` performs any send (line 975). -/
def mainTrace (stored : Option DailyCache) (today : String)
    (rawItems : List Candidate) (fmt : Candidate → String) : List RunEvent :=
  let r := mainRun stored today rawItems fmt
  RunEvent.writeCache r.savedCache :: r.messages.map RunEvent.send

/-! ## String helpers shared by enrichment and formatting -/

/-- Python's `needle in hay` substring test, on character lists. -/
def hasSub (needle : List Char) : List Char → Bool
  | [] => needle.isEmpty
  | c :: rest => needle.isPrefixOf (c :: rest) || hasSub needle rest

/-- Python's `needle in hay` substring test on strings. -/
def strHas (hay needle : String) : Bool :=
  hasSub needle.data hay.data

/-- Python's `str.lower()` (the script only lower-cases ASCII text). -/
def pyLower (s : String) : String :=
  ⟨s.data.map Char.toLower⟩

/-- Helper for `pyTitleCase`: the boolean tracks whether the previous
character was alphabetic. -/
def pyTitleGo : List Char → Bool → List Char
  | [], _ => []
  | c :: cs, prevAlpha =>
    (if c.isAlpha then (if prevAlpha then c.toLower else c.toUpper) else c) ::
      pyTitleGo cs c.isAlpha

/-- Python's `str.title()`: the first letter of every alphabetic run is
upper-cased, the rest lower-cased. -/
def pyTitleCase (s : String) : String :=
  ⟨pyTitleGo s.data false⟩

/-! ## SignalEngine.enrich (lines 547–643) -/

/-- KNOWN_COMPANIES (lines 129–137).  The source is a Python `set` literal;
the literal's textual order is used here (the set's iteration order is
unspecified and never observable through the script's substring matching
below, because matching prefers longer names and ties never co-occur in the
claims' titles). -/
def KNOWN_COMPANIES : List String :=
  [ "openai", "google", "microsoft", "meta", "facebook", "apple", "amazon", "nvidia",
    "tesla", "spacex", "anthropic", "deepmind", "huawei", "baidu", "alibaba", "tencent",
    "infosys", "tcs", "wipro", "hcl", "tech mahindra", "cognizant", "accenture",
    "samsung", "sony", "intel", "amd", "qualcomm", "broadcom", "oracle", "salesforce",
    "uber", "lyft", "airbnb", "stripe", "paypal", "square", "robinhood", "coinbase",
    "zoom", "slack", "spotify", "netflix", "twitter", "x corp", "linkedin", "tiktok",
    "bytedance", "snap", "pinterest", "reddit", "discord", "twitch", "epic games" ]

/-- `sorted(KNOWN_COMPANIES, key=len, reverse=True)` (line 574), written out:
the same 53 names ordered by decreasing length (ties keep an admissible
order — Python's tie order depends on the set's unspecified iteration
order).  `sortedCompanies_perm` below checks it is a permutation of
`KNOWN_COMPANIES`, and `sortedCompanies_sorted` that lengths decrease. -/
def sortedCompanies : List String :=
  [ "tech mahindra",
    "salesforce", "epic games",
    "microsoft", "anthropic", "cognizant", "accenture", "robinhood", "bytedance", "pinterest",
    "facebook", "deepmind", "qualcomm", "broadcom", "coinbase", "linkedin",
    "alibaba", "tencent", "infosys", "samsung", "spotify", "netflix", "twitter", "discord",
    "openai", "google", "amazon", "nvidia", "spacex", "huawei", "oracle", "airbnb",
    "stripe", "paypal", "square", "x corp", "tiktok", "reddit", "twitch",
    "apple", "tesla", "baidu", "wipro", "intel", "slack",
    "meta", "sony", "uber", "lyft", "zoom", "snap",
    "tcs", "hcl", "amd" ]

/-- First known company (longest first) occurring in the lower-cased title
(lines 574–578). -/
def findKnownCompany (titleLower : String) : Option String :=
  sortedCompanies.find? (fun kc => strHas titleLower kc)

/-- `SignalEngine.ticker_cache` (lines 548–558). -/
def ticker_cache : List (String × String) :=
  [ ("OpenAI", "MSFT"), ("Google", "GOOGL"), ("Alphabet", "GOOGL"),
    ("Microsoft", "MSFT"), ("Meta", "META"), ("Nvidia", "NVDA"),
    ("Infosys", "INFY"), ("TCS", "TCS.NS"), ("SAP", "SAP") ]

/-- `SignalEngine.country_emojis` (lines 560–564). -/
def country_emojis : List (String × String) :=
  [ ("India", "🇮🇳"), ("USA", "🇺🇸"), ("China", "🇨🇳") ]

/-- Dramatic verbs used by the headline rewrite (line 614). -/
def DRAMATIC_VERBS : List String :=
  ["shuts down", "explodes", "quietly builds", "replaces", "turbo-charges", "silently fires"]

/-- Enriched item returned by `SignalEngine.enrich`. -/
structure Enriched where
  company : String
  country : String
  emoji : String
  headline : String
  stock : String
  tag : String
  url : String
deriving DecidableEq, Repr

/-- `SignalEngine.enrich` (lines 566–643).  Oracles:
`regexCompany` stands for the regex-pattern fallback of lines 582–593 (only
reached when no whitelisted company matches; `none` models no pattern match
or a stop-worded/short match, falling back to `"TechCorp"`);
`quote` stands for the `yfinance` lookup of lines 596–603, returning the
formatted price string, or `none` on a missing/failed/falsy quote;
`verbIdx` stands for `random.choice(verbs)`. -/
def enrich (regexCompany : String → Option String) (quote : String → Option String)
    (verbIdx : Nat) (item : Candidate) : Enriched :=
  let title := item.title
  let titleLower := pyLower title
  let company : String :=
    match findKnownCompany titleLower with
    | some kc => pyTitleCase kc
    | none => (regexCompany title).getD "TechCorp"
  let stock : String :=
    match ticker_cache.lookup company with
    | some t => (quote t).getD "N/A"
    | none => "N/A"
  let companyLower := pyLower company
  let country : String :=
    if ["infosys", "tcs", "wipro", "hcl"].any (fun co => strHas companyLower co) then "India"
    else if ["huawei", "baidu", "alibaba", "tencent", "bytedance"].any
        (fun co => strHas companyLower co) then "China"
    else "USA"
  let headline : String :=
    if DRAMATIC_VERBS.any (fun v => strHas titleLower (pyLower v)) then title
    else if ¬ (["breaks", "shocking", "massive", "huge", "major"].any
        (fun w => strHas titleLower w)) then
      let mainPart : String :=
        if strHas title ":" then ⟨title.data.takeWhile (fun c => c ≠ ':')⟩ else title
      company ++ " " ++
        pyTitleCase (DRAMATIC_VERBS.getD (verbIdx % DRAMATIC_VERBS.length) "") ++
        " — " ++ mainPart
    else title
  let tag : String :=
    if ["layoff", "fire", "cut", "reduce", "close", "shut"].any
        (fun w => strHas titleLower w) then "🔴 Layoff"
    else if ["funding", "raise", "growth", "launch", "hire", "expand"].any
        (fun w => strHas titleLower w) then "🟢 Growth"
    else if ["ai", "tool", "app", "platform", "model"].any
        (fun w => strHas titleLower w) then "🤖 New Tool"
    else "🧠 Strategy"
  ⟨company, country, (country_emojis.lookup country).getD "🌍", headline, stock, tag,
    item.url⟩

/-! ## Formatter (lines 647–882)

`random.choice(pool)` is modelled as `pyChoice pool idx` with an oracle index
`idx` (the chosen element is `pool[idx % len(pool)]`, covering every possible
choice).  `random.sample(pool, k)` and the unspecified iteration order of
`list(set(tags))` are oracles constrained, in the theorems, to return
elements of their input.  The `float` arithmetic of `_convert_to_inr`
(price parsing, the 83.1 exchange rate, `%,.0f` formatting) is modelled as an
opaque oracle `conv` returning the `(inr_price, arrow)` pair of strings. -/

/-- Uniform choice from a list: `random.choice(pool)` with oracle index. -/
def pyChoice (pool : List String) (idx : Nat) : String :=
  pool.getD (idx % pool.length) ""

/-- `Formatter.EMOTE_POOLS` (lines 649–658). -/
def EMOTE_POOLS : List (String × List String) :=
  [ ("layoffs", ["🚨", "📉", "⚠️"]),
    ("ai_tools", ["🤖", "⚙️", "🧠"]),
    ("predictions", ["🔮", "🌟", "📊"]),
    ("positive", ["📈", "🚀", "🔥"]),
    ("negative", ["📉", "⚠️", "🚨"]),
    ("meta_ai", ["🧠", "🔮", "⚡"]),
    ("power_moves", ["🔥", "⚡", "🎯"]),
    ("default", ["📰", "🔍", "💡"]) ]

/-- Lookup of an emote pool by name. -/
def emotePool (name : String) : List String :=
  (EMOTE_POOLS.lookup name).getD []

/-- `Formatter._get_dynamic_emote` (lines 689–709). -/
def get_dynamic_emote (emoteIdx : Nat) (title tag : String) : String :=
  let t := pyLower title
  if ["layoff", "fire", "cut", "shutdown", "close"].any (fun w => strHas t w) then
    pyChoice (emotePool "layoffs") emoteIdx
  else if ["ai", "robot", "automat", "tool"].any (fun w => strHas t w) then
    pyChoice (emotePool "ai_tools") emoteIdx
  else if ["predict", "future", "2026", "2025", "forecast"].any (fun w => strHas t w) then
    pyChoice (emotePool "predictions") emoteIdx
  else if tag = "🟢 Growth" ∨ ["raise", "funding", "growth", "launch"].any (fun w => strHas t w) then
    pyChoice (emotePool "positive") emoteIdx
  else if tag = "🔴 Layoff" ∨ ["drop", "fall", "decline"].any (fun w => strHas t w) then
    pyChoice (emotePool "negative") emoteIdx
  else if ["meta", "openai", "deepmind"].any (fun w => strHas t w) then
    pyChoice (emotePool "meta_ai") emoteIdx
  else if ["shift", "pivot", "move", "stealth", "quiet"].any (fun w => strHas t w) then
    pyChoice (emotePool "power_moves") emoteIdx
  else
    pyChoice (emotePool "default") emoteIdx

/-- Stock line of `build_post` (lines 836–842), with the `_convert_to_inr`
float arithmetic as the oracle `conv`. -/
def stock_line (conv : String → String × String) (stock : String) : String :=
  let p := conv stock
  if p.1 ≠ "N/A" then "📊 " ++ p.1 ++ " " ++ p.2 ++ " | " ++ stock ++ " USD"
  else "📊 Stock: " ++ stock

/-- Helper for `pyWords`: split into maximal whitespace-free runs, dropping
empty runs (`cur` is the current run, reversed). -/
def pyWordsGo : List Char → List Char → List (List Char)
  | [], cur => if cur = [] then [] else [cur.reverse]
  | c :: cs, cur =>
    if c.isWhitespace then
      if cur = [] then pyWordsGo cs [] else cur.reverse :: pyWordsGo cs []
    else pyWordsGo cs (c :: cur)

/-- Python's `str.split()` with no argument: split on whitespace runs. -/
def pyWords (s : String) : List String :=
  (pyWordsGo s.data []).map (fun l => ⟨l⟩)

/-- Join a list of strings with a separator (Python's `sep.join(...)`). -/
def joinWith (sep : String) : List String → String
  | [] => ""
  | [x] => x
  | x :: y :: ys => x ++ sep ++ joinWith sep (y :: ys)

/-- Python's `str.strip()`: drop whitespace from both ends. -/
def pyStrip (s : String) : String :=
  ⟨((s.data.dropWhile Char.isWhitespace).reverse.dropWhile Char.isWhitespace).reverse⟩

/-- `Formatter._generate_description` (lines 729–745).  `build_post` calls it
with the default `original_summary = ""`. -/
def generate_description (title original_summary : String) : String :=
  if original_summary ≠ "" ∧ 20 < original_summary.length then
    let desc := pyStrip original_summary
    if 200 < desc.length then ⟨desc.data.take 200⟩ ++ "..." else desc
  else
    let words := pyWords title
    if 8 < words.length then
      joinWith " " (words.drop 3) ++ " Details are emerging about the strategic implications."
    else
      "Breaking development in the tech industry with significant market implications."

/-- `Formatter.INSIGHT_TEMPLATES` (lines 661–672). -/
def INSIGHT_TEMPLATES : List String :=
  [ "Signals a major power shift in {industry}.",
    "Hints at long-term intent by {company}.",
    "Could alter the AI stack economics completely.",
    "This is not just {action} — it\x27s a test case for AI-first capitalism.",
    "Represents a fundamental change in how {industry} operates.",
    "Shows {company} is betting big on {trend} dominance.",
    "This move could reshape competitive dynamics across {sector}.",
    "Early signal of what\x27s coming for the entire {industry}.",
    "Strategic positioning for the next wave of {technology}.",
    "Reveals {company}\x27s true priorities behind the headlines." ]

/-- Helper for `pyReplace`: replace occurrences of `pat` left to right, with
fuel (`fuel = length of the subject` suffices, since every step either
consumes at least one character or `pat` is empty and the subject is
returned by running out of characters first; the script only ever calls it
with non-empty `pat`). -/
def replaceGo (pat rep : List Char) : Nat → List Char → List Char
  | 0, s => s
  | _ + 1, [] => []
  | fuel + 1, c :: cs =>
    if pat.isPrefixOf (c :: cs) then rep ++ replaceGo pat rep fuel ((c :: cs).drop pat.length)
    else c :: replaceGo pat rep fuel cs

/-- Python's `str.replace(pat, rep)` (used to model `str.format`'s
substitution of `{name}` placeholders, each of which occurs at most once per
template). -/
def pyReplace (s pat rep : String) : String :=
  ⟨replaceGo pat.data rep.data s.data.length s.data⟩

/-- `template.format(company=..., industry=..., action=..., trend=...,
technology=..., sector=...)` from `_generate_insight` (lines 779–786). -/
def fmtInsight (tpl company industry action trend technology sector : String) : String :=
  pyReplace (pyReplace (pyReplace (pyReplace (pyReplace (pyReplace tpl
    "{company}" company) "{industry}" industry) "{action}" action)
    "{trend}" trend) "{technology}" technology) "{sector}" sector

/-- Context variables of `_generate_insight` (lines 752–776):
(industry, action, trend, technology, sector). -/
def insightContext (title : String) : String × String × String × String × String :=
  let t := pyLower title
  if ["ai", "artificial intelligence"].any (fun w => strHas t w) then
    ("AI", "automation", "AI", "artificial intelligence", "tech")
  else if ["funding", "raise", "investment"].any (fun w => strHas t w) then
    ("venture capital", "funding", "investment", "fintech", "startup ecosystem")
  else if ["layoff", "fire", "cut"].any (fun w => strHas t w) then
    ("workforce management", "restructuring", "automation", "workforce tech", "employment")
  else
    ("technology", "innovation", "digital transformation", "emerging tech", "tech industry")

/-- `Formatter._generate_insight` (lines 747–786). -/
def generate_insight (insightIdx : Nat) (company title : String) : String :=
  let ctx := insightContext title
  let tpl := pyChoice INSIGHT_TEMPLATES insightIdx
  fmtInsight tpl company ctx.1 ctx.2.1 ctx.2.2.1 ctx.2.2.2.1 ctx.2.2.2.2

/-- `Formatter.HASHTAG_POOLS` (lines 675–687). -/
def HASHTAG_POOLS : List (String × List String) :=
  [ ("ai", ["#AIInfrastructure", "#LLMShift", "#OpenSourceAI", "#AIStack"]),
    ("meta", ["#MetaMoves", "#SocialAI", "#MetaReality"]),
    ("google", ["#GoogleShift", "#SearchAI", "#CloudWars"]),
    ("openai", ["#OpenAIMoves", "#GPTShift", "#FoundationalAI"]),
    ("china", ["#ChinaTech", "#DragonAI", "#EastVsWest"]),
    ("india", ["#IndiaSignals", "#BharatTech", "#DigitalIndia"]),
    ("funding", ["#VCMoves", "#StartupSignals", "#TechFunding"]),
    ("layoffs", ["#TechLayoffs", "#AutomationEdge", "#WorkforceTrends"]),
    ("automation", ["#AutomationEdge", "#FutureWork", "#AIJobs"]),
    ("startup", ["#StartupSignals", "#FounderMoves", "#ScaleUp"]),
    ("general", ["#TechTrends", "#FounderSignals", "#TechShift", "#AINews"]) ]

/-- Lookup of a hashtag pool by name. -/
def hashtagPool (name : String) : List String :=
  (HASHTAG_POOLS.lookup name).getD []

/-- The `while len(tags) < 4` padding loop of `_generate_hashtags`
(lines 820–821), with fuel 4: when each `random.sample(general, 1)` returns
one element (as Python's does), at most 4 rounds are needed. -/
def padTags (sample : List String → Nat → List String) : Nat → List String → List String
  | 0, tags => tags
  | fuel + 1, tags =>
    if tags.length < 4 then padTags sample fuel (tags ++ sample (hashtagPool "general") 1)
    else tags

/-- Colored dots appended to hashtags (line 825). -/
def TAG_COLORS : List String := ["🔵", "🟣", "🔴", "🟠", "🟡", "🟢"]

/-- Company-, content- and country-specific tag accumulation of
`_generate_hashtags` (lines 795–817), before the padding loop. -/
def rawTags (sample : List String → Nat → List String)
    (title company country : String) : List String :=
  let t := pyLower title
  let c := pyLower company
  (if strHas c "meta" then sample (hashtagPool "meta") 2
    else if strHas c "google" then sample (hashtagPool "google") 2
    else if strHas c "openai" then sample (hashtagPool "openai") 2
    else []) ++
  (if ["ai", "artificial intelligence"].any (fun w => strHas t w) then
    sample (hashtagPool "ai") 1 else []) ++
  (if ["funding", "raise", "investment"].any (fun w => strHas t w) then
    sample (hashtagPool "funding") 1 else []) ++
  (if ["layoff", "fire", "cut"].any (fun w => strHas t w) then
    sample (hashtagPool "layoffs") 1 else []) ++
  (if country = "China" then sample (hashtagPool "china") 1
   else if country = "India" then sample (hashtagPool "india") 1
   else [])

/-- `Formatter._generate_hashtags` (lines 788–828).  `sample` is the
`random.sample` oracle and `uniq` the iteration order of `list(set(tags))`. -/
def generate_hashtags (sample : List String → Nat → List String)
    (uniq : List String → List String) (title company country : String) : String :=
  let tags5 := padTags sample 4 (rawTags sample title company country)
  let tags6 := (uniq tags5).take 6
  joinWith "   " (tags6.enum.map (fun p =>
    p.2 ++ " " ++ TAG_COLORS.getD (p.1 % TAG_COLORS.length) ""))

/-- Helper for `cleanUrl`: the remainder of the subject after the first
occurrence of `pat`, if any. -/
def afterSub (pat : List Char) : List Char → Option (List Char)
  | [] => if pat = [] then some [] else none
  | c :: cs =>
    if pat.isPrefixOf (c :: cs) then some ((c :: cs).drop pat.length)
    else afterSub pat cs

/-- The `netloc` and `path` of `urllib.parse.urlparse` as used on line 862:
the authority after `scheme://` and the path up to a query or fragment. -/
def urlNetlocPath (url : String) : String × String :=
  match afterSub "://".data url.data with
  | none => ("", ⟨url.data.takeWhile (fun ch => ch ≠ '?' ∧ ch ≠ '#')⟩)
  | some rest =>
    (⟨rest.takeWhile (fun ch => ch ≠ '/')⟩,
     ⟨(rest.dropWhile (fun ch => ch ≠ '/')).takeWhile (fun ch => ch ≠ '?' ∧ ch ≠ '#')⟩)

/-- URL shortening of `build_post` (lines 857–864): urls longer than 50
characters are displayed as `netloc + path + "..."` (the `except` branch of
the source is dead, `urlparse` does not raise on strings). -/
def cleanUrl (url : String) : String :=
  if 50 < url.length then
    let p := urlNetlocPath url
    p.1 ++ p.2 ++ "..."
  else url

/-- `Formatter.build_post` (lines 830–882).  The multiline f-string of the
source is written as the newline-join of its 14 lines.  Oracles: `emoteIdx`
and `insightIdx` for the two `random.choice` calls, `sample`/`uniq` for
`_generate_hashtags`, `conv` for `_convert_to_inr`, and `date` for
`today_str()` (wall clock). -/
def build_post (emoteIdx insightIdx : Nat)
    (sample : List String → Nat → List String) (uniq : List String → List String)
    (conv : String → String × String) (date : String) (d : Enriched) : String :=
  let emote := get_dynamic_emote emoteIdx d.headline d.tag
  let sLine := stock_line conv d.stock
  let description := generate_description d.headline ""
  let insight := generate_insight insightIdx d.company d.headline
  let hashtags := generate_hashtags sample uniq d.headline d.company d.country
  joinWith "\n"
    [ emote ++ " *" ++ d.headline ++ "*",
      "",
      sLine,
      "🏢 " ++ d.company ++ " | " ++ d.emoji ++ " | 📅 " ++ date,
      "",
      "📝 *Description:*",
      description,
      "",
      "🧠 *Why it matters:*",
      insight,
      "",
      hashtags,
      "",
      "🔗 Source: " ++ cleanUrl d.url ]

/-- Absence of newlines in a string (what makes a "line" of a card a single
rendered line). -/
def noNL (s : String) : Prop := '\n' ∉ s.data

instance (s : String) : Decidable (noNL s) :=
  inferInstanceAs (Decidable ('\n' ∉ s.data))

/-! ## Fetchers and error tracking (lines 152–171, 262–343, 345–387, 516–543)

Each fetcher is written in `Except String`: external operations (HTTP
fetches, feed parsing, the trends API, the Reddit API) are oracles returning
`Except`, a `try/except` block is a `match` placed exactly where the source
places it, and an error value that reaches the fetcher's result means the
Python function would have raised to its caller. -/

/-- `ErrorTracker` (lines 152–171): per-source error strings and success
counts (the `defaultdict`/dict is modelled as an append list; only
membership is used by the theorems). -/
structure ErrorTracker where
  errors : List (String × String)
  successes : List (String × Nat)
deriving DecidableEq, Repr

/-- `ErrorTracker.log_error`. -/
def logError (et : ErrorTracker) (source err : String) : ErrorTracker :=
  ⟨et.errors ++ [(source, err)], et.successes⟩

/-- `ErrorTracker.log_success`. -/
def logSuccess (et : ErrorTracker) (source : String) (count : Nat) : ErrorTracker :=
  ⟨et.errors, et.successes ++ [(source, count)]⟩

/-- Queries of `DiscoveryEngine.google_news` (line 265). -/
def GN_QUERIES : List String :=
  ["AI", "artificial+intelligence", "machine+learning", "tech+news", "startup"]

/-- `DiscoveryEngine.google_news` (lines 262–278): the whole body of the
per-query loop sits inside `try/except`, so a failing feed parse is recorded
against `"Google News (<query>)"` and the function always returns its items
list.  `feeds` is the oracle for `feedparser.parse` per query. -/
def google_news (feeds : String → Except String (List Candidate))
    (et : ErrorTracker) : Except String (List Candidate × ErrorTracker) :=
  .ok (GN_QUERIES.foldl (fun acc q =>
    match feeds q with
    | .ok entries =>
      (acc.1 ++ entries.take 10,
        logSuccess acc.2 ("Google News (" ++ q ++ ")") (entries.take 10).length)
    | .error e => (acc.1, logError acc.2 ("Google News (" ++ q ++ ")") e)) ([], et))

/-- Keywords of `DiscoveryEngine.hackernews` (line 284). -/
def HN_KEYWORDS : List String := ["ai", "chatgpt", "llm", "gpt", "machine learning"]

/-- Selection loop of `hackernews` (lines 286–291): keep keyword-matching
story links, stopping once 10 are kept. -/
def hnGo : List Candidate → List Candidate → List Candidate
  | [], acc => acc
  | a :: rest, acc =>
    let acc2 :=
      if HN_KEYWORDS.any (fun k => strHas (pyLower a.title) (pyLower k)) then acc ++ [a]
      else acc
    if 10 ≤ acc2.length then acc2 else hnGo rest acc2

/-- `DiscoveryEngine.hackernews` (lines 280–292): `get_html` (which raises on
HTTP errors) and the soup parse are the oracle `page`, giving the extracted
story links.  The body contains no `try/except`, so a fetch failure
propagates to the caller. -/
def hackernews (page : Except String (List Candidate)) :
    Except String (List Candidate) :=
  match page with
  | .error e => .error e
  | .ok links => .ok (hnGo links [])

/-- The `try/except` around `pool.extend(self.hackernews())` inside
`DiscoveryEngine.discover` (lines 419–423): a raising `hackernews` is caught
there and recorded against `"Hacker News"`. -/
def discoverHackernews (page : Except String (List Candidate))
    (et : ErrorTracker) : List Candidate × ErrorTracker :=
  match hackernews page with
  | .ok items => (items, et)
  | .error e => ([], logError et "Hacker News" e)

/-- Keywords of `DiscoveryEngine.google_trends` (line 295). -/
def GT_KEYWORDS : List String := ["Artificial Intelligence", "ChatGPT", "OpenAI"]

/-- `DiscoveryEngine.google_trends` (lines 294–312): each keyword's trends
query sits inside `try/except`, but the handler only calls `log.error` — the
`ErrorTracker` is never touched by this fetcher.  `related` is the oracle
for the pytrends lookup (the extracted top-queries column).  `list(set(...))`
at line 312 has unspecified order and is modelled as first-occurrence
deduplication. -/
def google_trends (related : String → Except String (List String))
    (et : ErrorTracker) : Except String (List String × ErrorTracker) :=
  .ok ((GT_KEYWORDS.foldl (fun acc kw =>
    match related kw with
    | .ok qs => acc ++ qs
    | .error _ => acc) []).eraseDups, et)

/-- `DiscoveryEngine._extract_from_site` (lines 316–343): the page fetch and
outer loop sit in `try/except` recording `"Site scrape: ..."` against the
site's url; each article extraction sits in an inner `try/except` recording
`"Article extraction: ..."`.  `page` is the oracle for
`session.get` + soup selection: each article element yields either an
extraction error, `none` (missing title/link element or empty strings), or a
candidate. -/
def extract_from_site (siteUrl : String)
    (page : Except String (List (Except String (Option Candidate))))
    (et : ErrorTracker) : Except String (List Candidate × ErrorTracker) :=
  match page with
  | .error e => .ok ([], logError et siteUrl ("Site scrape: " ++ e))
  | .ok articles =>
    let r := (articles.take 5).foldl (fun acc a =>
      match a with
      | .error e => (acc.1, logError acc.2 siteUrl ("Article extraction: " ++ e))
      | .ok none => acc
      | .ok (some c) => (acc.1 ++ [c], acc.2)) ([], et)
    .ok (r.1, logSuccess r.2 siteUrl r.1.length)

/-- `DiscoveryEngine._scrape_generic_tech_news` (lines 345–387): each url's
fetch-and-select sits inside `try/except` with `continue`, recording
`"Scrape: ..."` against `"Generic <url>"`.  `fetch` is the oracle for
`session.get` + the selector cascade, yielding the site's extracted items. -/
def scrape_generic_tech_news (fetch : String → Except String (List Candidate))
    (urls : List String) (et : ErrorTracker) :
    Except String (List Candidate × ErrorTracker) :=
  .ok (urls.foldl (fun acc url =>
    match fetch url with
    | .ok siteItems =>
      (acc.1 ++ siteItems, logSuccess acc.2 ("Generic " ++ url) siteItems.length)
    | .error e => (acc.1, logError acc.2 ("Generic " ++ url) ("Scrape: " ++ e))) ([], et))

/-- Subreddits of `DiscoveryEngine.reddit_scrape` (lines 249–260). -/
def redditSubs : List String :=
  [ "MachineLearning", "ArtificialIntelligence", "OpenAI", "technology", "Futurology",
    "TechNewsToday", "computervision", "datascience", "deeplearning", "AskProgramming" ]

/-- Keyword filter of `reddit_scrape` (line 535). -/
def REDDIT_KEYWORDS : List String :=
  ["ai", "artificial intelligence", "machine learning", "tech", "startup"]

/-- `DiscoveryEngine.reddit_scrape` (lines 516–543): each subreddit's JSON
fetch sits inside `try/except` recording against `"Reddit r/<sub>"`; posts
are filtered by keyword.  `posts` is the oracle for the JSON API call,
yielding the posts of one subreddit. -/
def reddit_scrape (posts : String → Except String (List Candidate))
    (et : ErrorTracker) : Except String (List Candidate × ErrorTracker) :=
  .ok ((redditSubs.take 5).foldl (fun acc sub =>
    match posts sub with
    | .ok children =>
      (acc.1 ++ children.filter
        (fun p => REDDIT_KEYWORDS.any (fun k => strHas (pyLower p.title) k)),
        logSuccess acc.2 ("Reddit r/" ++ sub) children.length)
    | .error e => (acc.1, logError acc.2 ("Reddit r/" ++ sub) e)) ([], et))

/-! ## Theorems -/

set_option maxRecDepth 8192

/-- The kept items of the dedup loop form a sublist of the pool (relative
order of the input is preserved). -/
theorem dedupGo_sublist : ∀ (pool : List Candidate) (sT sU sH : List String),
    List.Sublist (dedupGo pool sT sU sH).1 pool := by
  intro pool
  induction pool with
  | nil => intro sT sU sH; simp [dedupGo]
  | cons itm rest ih =>
    intro sT sU sH
    simp only [dedupGo]
    split
    · exact (ih sT sU sH).cons itm
    · exact (ih _ _ _).cons₂ itm

/-- Invariant of the dedup loop: kept items have pairwise-distinct titles,
urls and fingerprints, and none of those keys lies in the given seen-sets. -/
theorem dedupGo_inv : ∀ (pool : List Candidate) (sT sU sH : List String),
    (((dedupGo pool sT sU sH).1.map (fun c => c.title)).Nodup ∧
      ∀ c ∈ (dedupGo pool sT sU sH).1, c.title ∉ sT) ∧
    (((dedupGo pool sT sU sH).1.map (fun c => c.url)).Nodup ∧
      ∀ c ∈ (dedupGo pool sT sU sH).1, c.url ∉ sU) ∧
    (((dedupGo pool sT sU sH).1.map fingerprint).Nodup ∧
      ∀ c ∈ (dedupGo pool sT sU sH).1, fingerprint c ∉ sH) := by
  intro pool
  induction pool with
  | nil => intro sT sU sH; simp [dedupGo]
  | cons itm rest ih =>
    intro sT sU sH
    simp only [dedupGo]
    split
    · exact ih sT sU sH
    · rename_i hguard
      push_neg at hguard
      obtain ⟨hT, hU, hH⟩ := hguard
      obtain ⟨⟨ihT1, ihT2⟩, ⟨ihU1, ihU2⟩, ihH1, ihH2⟩ :=
        ih (itm.title :: sT) (itm.url :: sU) (fingerprint itm :: sH)
      refine ⟨⟨?_, ?_⟩, ⟨?_, ?_⟩, ?_, ?_⟩
      · refine List.nodup_cons.mpr ⟨?_, ihT1⟩
        intro hmem
        obtain ⟨c, hc, hceq⟩ := List.mem_map.mp hmem
        exact (ihT2 c hc) (hceq ▸ List.mem_cons_self _ _)
      · intro c hc
        rcases List.mem_cons.mp hc with h | h
        · exact h ▸ hT
        · exact fun hmem => (ihT2 c h) (List.mem_cons_of_mem _ hmem)
      · refine List.nodup_cons.mpr ⟨?_, ihU1⟩
        intro hmem
        obtain ⟨c, hc, hceq⟩ := List.mem_map.mp hmem
        exact (ihU2 c hc) (hceq ▸ List.mem_cons_self _ _)
      · intro c hc
        rcases List.mem_cons.mp hc with h | h
        · exact h ▸ hU
        · exact fun hmem => (ihU2 c h) (List.mem_cons_of_mem _ hmem)
      · refine List.nodup_cons.mpr ⟨?_, ihH1⟩
        intro hmem
        obtain ⟨c, hc, hceq⟩ := List.mem_map.mp hmem
        exact (ihH2 c hc) (hceq ▸ List.mem_cons_self _ _)
      · intro c hc
        rcases List.mem_cons.mp hc with h | h
        · exact h ▸ hH
        · exact fun hmem => (ihH2 c h) (List.mem_cons_of_mem _ hmem)

/-- The seen-fingerprint set returned by the dedup loop holds exactly the
fingerprints of the kept items on top of the initial set (a fingerprint is
inserted exactly when its item is kept). -/
theorem dedupGo_seenH : ∀ (pool : List Candidate) (sT sU sH : List String),
    (dedupGo pool sT sU sH).2 =
      ((dedupGo pool sT sU sH).1.map fingerprint).reverse ++ sH := by
  intro pool
  induction pool with
  | nil => intro sT sU sH; simp [dedupGo]
  | cons itm rest ih =>
    intro sT sU sH
    simp only [dedupGo]
    split
    · exact ih sT sU sH
    · have := ih (itm.title :: sT) (itm.url :: sU) (fingerprint itm :: sH)
      simp only [this, List.map_cons, List.reverse_cons, List.append_assoc,
        List.singleton_append]

/-- The backup fallback preserves pairwise-distinct fingerprints: it only
appends backup items whose fingerprint is not in the seen set, which covers
all fingerprints already present. -/
theorem backupGo_fp_nodup : ∀ (backups deduped : List Candidate) (seenH : List String),
    (deduped.map fingerprint).Nodup →
    (∀ c ∈ deduped, fingerprint c ∈ seenH) →
    ((backupGo backups deduped seenH).map fingerprint).Nodup := by
  intro backups
  induction backups with
  | nil => intro deduped seenH h _; simpa [backupGo] using h
  | cons b rest ih =>
    intro deduped seenH hnodup hcover
    simp only [backupGo]
    split
    · split
      · exact hnodup
      · exact ih deduped seenH hnodup hcover
    · rename_i hb
      have hnotin : fingerprint b ∉ deduped.map fingerprint := by
        intro hmem
        obtain ⟨c, hc, hceq⟩ := List.mem_map.mp hmem
        exact hb (hceq ▸ hcover c hc)
      have hnodup2 : ((deduped ++ [b]).map fingerprint).Nodup := by
        simp only [List.map_append, List.map_cons, List.map_nil]
        simp [List.nodup_append, hnodup, hnotin]
      split
      · exact hnodup2
      · refine ih (deduped ++ [b]) (fingerprint b :: seenH) hnodup2 ?_
        intro c hc
        rcases List.mem_append.mp hc with h | h
        · exact List.mem_cons_of_mem _ (hcover c h)
        · simp at h
          simp [h]

/-- C1 — corrected.  Counterexample to the claim as stated: a pool whose
single candidate carries the same title as a backup headline (with a
different url) survives deduplication; the backup fallback then compares
fingerprints only, so the backup headline is appended as well and the
returned list holds two entries with the same title. -/
theorem discover_backup_title_collision :
    ¬ ((discover
        [⟨"OpenAI Quietly Builds Next-Gen AI Infrastructure to Challenge Google",
          "https://other.example/x"⟩]).map (fun c => c.title)).Nodup := by
  decide

/-- C1 — amended claim: the dedup stage returns entries with pairwise
distinct titles, urls and fingerprints, in the relative order of the input
pool; after the backup-fallback branch has appended backup items the result
still has pairwise-distinct fingerprints, but title and url uniqueness is no
longer guaranteed (the fallback checks fingerprints only, see the
counterexample). -/
theorem discover_dedup_unique_keys (pool : List Candidate) :
    ((dedupGo pool [] [] []).1.map (fun c => c.title)).Nodup ∧
    ((dedupGo pool [] [] []).1.map (fun c => c.url)).Nodup ∧
    ((dedupGo pool [] [] []).1.map fingerprint).Nodup ∧
    List.Sublist (dedupGo pool [] [] []).1 pool ∧
    ((discover pool).map fingerprint).Nodup := by
  obtain ⟨⟨hT, _⟩, ⟨hU, _⟩, hH, _⟩ := dedupGo_inv pool [] [] []
  refine ⟨hT, hU, hH, dedupGo_sublist pool [] [] [], ?_⟩
  have hcover : ∀ c ∈ (dedupGo pool [] [] []).1,
      fingerprint c ∈ (dedupGo pool [] [] []).2 := by
    intro c hc
    rw [dedupGo_seenH]
    simp only [List.append_nil, List.mem_reverse]
    exact List.mem_map.mpr ⟨c, hc, rfl⟩
  have hfull : ((if (dedupGo pool [] [] []).1.length < 5 then
      backupGo BACKUP_HEADLINES (dedupGo pool [] [] []).1 (dedupGo pool [] [] []).2
      else (dedupGo pool [] [] []).1).map fingerprint).Nodup := by
    split
    · exact backupGo_fp_nodup BACKUP_HEADLINES _ _ hH hcover
    · exact hH
  have : List.Sublist ((discover pool).map fingerprint)
      ((if (dedupGo pool [] [] []).1.length < 5 then
        backupGo BACKUP_HEADLINES (dedupGo pool [] [] []).1 (dedupGo pool [] [] []).2
        else (dedupGo pool [] [] []).1).map fingerprint) :=
    (List.take_sublist 50 _).map fingerprint
  exact hfull.sublist this

/-- When the accumulated list already holds 10 items, the spec-worded
fallback appends nothing. -/
theorem specFallback_of_ge : ∀ (backups acc : List Candidate) (seen : List String),
    10 ≤ acc.length → specFallback backups acc seen = acc := by
  intro backups acc seen h
  cases backups with
  | nil => rfl
  | cons b rest => simp [specFallback, h]

/-- The code's backup loop computes exactly the spec-worded fallback whenever
it starts below 10 items (as it always does under the `< 5` guard). -/
theorem backupGo_eq_specFallback : ∀ (backups acc : List Candidate) (seen : List String),
    acc.length < 10 → backupGo backups acc seen = specFallback backups acc seen := by
  intro backups
  induction backups with
  | nil => intro acc seen _; rfl
  | cons b rest ih =>
    intro acc seen hlt
    have hnot : ¬ 10 ≤ acc.length := Nat.not_le.mpr hlt
    simp only [backupGo, specFallback, if_neg hnot]
    split
    · exact ih acc seen hlt
    · by_cases h10 : 10 ≤ (acc ++ [b]).length
      · rw [if_pos h10, specFallback_of_ge rest (acc ++ [b]) _ h10]
      · rw [if_neg h10]
        exact ih (acc ++ [b]) _ (Nat.not_le.mp h10)

/-- C2 — confirmed: when fewer than 5 entries survive deduplication,
`discover`'s fallback equals the spec-worded procedure `specFallback`
(append backup entries in order, skip exactly the already-seen fingerprints,
stop at 10 total or when the backup list runs out); when 5 or more entries
survive, no backup entry is appended. -/
theorem discover_backup_fallback_spec (pool : List Candidate) :
    discover pool =
      (if (dedupGo pool [] [] []).1.length < 5 then
        specFallback BACKUP_HEADLINES (dedupGo pool [] [] []).1 (dedupGo pool [] [] []).2
      else (dedupGo pool [] [] []).1).take 50 := by
  by_cases h : (dedupGo pool [] [] []).1.length < 5
  · simp only [discover, if_pos h]
    rw [backupGo_eq_specFallback BACKUP_HEADLINES _ _ (Nat.lt_of_lt_of_le h (by norm_num))]
  · simp only [discover, if_neg h]

/-- Every text handed to the transport inside the retry loop is the loop's
(already truncated) text. -/
theorem sendLoop_texts (tr : Nat → Bool) (j : Nat → ℚ) (text : List Char) :
    ∀ (fuel attempts : Nat) (delay : ℚ),
      ∀ s ∈ (sendLoop tr j text fuel attempts delay).texts, s = text := by
  intro fuel
  induction fuel with
  | zero => intro attempts delay s hs; simp [sendLoop] at hs
  | succ n ih =>
    intro attempts delay s hs
    simp only [sendLoop] at hs
    split at hs
    · simpa using hs
    · rcases List.mem_cons.mp hs with h | h
      · exact h
      · exact ih (attempts + 1) (delay * 2) s h

/-- C3 — confirmed: a transport failing on the first two attempts and
succeeding on the third makes `send_post` return `True`, after sleeping
exactly twice; with the jitter drawn from `[0, 3]`, the first delay
(5 + jitter) is strictly below the second (10 + jitter). -/
theorem send_post_third_attempt_success (tr : Nat → Bool) (j : Nat → ℚ)
    (text : List Char)
    (h0 : tr 0 = false) (h1 : tr 1 = false) (h2 : tr 2 = true)
    (hj0 : 0 ≤ j 0) (hj0top : j 0 ≤ 3) (hj1 : 0 ≤ j 1) (hj1top : j 1 ≤ 3) :
    (send_post tr j text).ok = true ∧
    (send_post tr j text).sleeps = [5 + j 0, 10 + j 1] ∧
    5 + j 0 < 10 + j 1 := by
  have hrun : send_post tr j text =
      ⟨true, [send_post_truncate text, send_post_truncate text, send_post_truncate text],
        [5 + j 0, 5 * 2 + j 1]⟩ := by
    simp [send_post, sendLoop, h0, h1, h2]
  refine ⟨by rw [hrun], by rw [hrun]; norm_num, by linarith⟩

/-- C3 — witness: concrete transport succeeding on the third attempt with
jitter 1. -/
theorem send_post_third_attempt_success_witness :
    (send_post (fun n => n == 2) (fun _ => 1) []).ok = true ∧
    (send_post (fun n => n == 2) (fun _ => 1) []).sleeps = [5 + 1, 10 + 1] ∧
    (5 + 1 : ℚ) < 10 + 1 :=
  send_post_third_attempt_success (fun n => n == 2) (fun _ => 1) []
    rfl rfl rfl (by norm_num) (by norm_num) (by norm_num) (by norm_num)

/-- C8 — confirmed: the body `send_post` passes to the transport is the
truncation of its input on every attempt; that truncation never exceeds 4096
characters, leaves texts of at most 4096 characters unchanged, and replaces
longer texts by their first 4086 characters plus an ellipsis before any send
attempt is made. -/
theorem send_post_truncation_bound (tr : Nat → Bool) (j : Nat → ℚ)
    (text : List Char) :
    (∀ s ∈ (send_post tr j text).texts, s = send_post_truncate text) ∧
    (send_post_truncate text).length ≤ 4096 ∧
    (text.length ≤ 4096 → send_post_truncate text = text) ∧
    (4096 < text.length → send_post_truncate text = text.take 4086 ++ ['…']) := by
  refine ⟨fun s hs => sendLoop_texts tr j _ 3 0 5 s hs, ?_, ?_, ?_⟩
  · unfold send_post_truncate
    split
    · rename_i h
      have : (text.take (4096 - 10)).length ≤ 4096 - 10 := text.length_take_le _
      simp only [List.length_append, List.length_cons, List.length_nil]
      omega
    · rename_i h
      omega
  · intro h
    unfold send_post_truncate
    rw [if_neg (by omega)]
  · intro h
    unfold send_post_truncate
    rw [if_pos h]

/-- C8 — witness: a short text is passed through unchanged. -/
theorem send_post_truncation_bound_witness :
    send_post_truncate ['a'] = ['a'] :=
  (send_post_truncation_bound (fun _ => true) (fun _ => 0) ['a']).2.2.1 (by decide)

/-- `send_post` returns `False` when the transport fails on all three
attempts. -/
theorem send_post_all_fail (tr : Nat → Bool) (j : Nat → ℚ) (text : List Char)
    (h : ∀ a < 3, tr a = false) : (send_post tr j text).ok = false := by
  have h0 := h 0 (by norm_num)
  have h1 := h 1 (by norm_num)
  have h2 := h 2 (by norm_num)
  simp [send_post, sendLoop, h0, h1, h2]

/-- The delivery loop attempts every message of the batch, in order. -/
theorem runGo_attempts_all (tr : Nat → Nat → Bool) (j : Nat → Nat → ℚ) :
    ∀ (messages : List (List Char)) (i : Nat), (runGo tr j messages i).1 = messages := by
  intro messages
  induction messages with
  | nil => intro i; rfl
  | cons m rest ih => intro i; simp [runGo, ih (i + 1)]

/-- The failed list collected by the delivery loop is a sublist of the
batch. -/
theorem runGo_failed_sublist (tr : Nat → Nat → Bool) (j : Nat → Nat → ℚ) :
    ∀ (messages : List (List Char)) (i : Nat),
      List.Sublist (runGo tr j messages i).2 messages := by
  intro messages
  induction messages with
  | nil => intro i; simp [runGo]
  | cons m rest ih =>
    intro i
    simp only [runGo]
    split
    · exact (ih (i + 1)).cons m
    · exact (ih (i + 1)).cons₂ m

/-- A message whose three transport attempts all fail lands in the failed
list. -/
theorem runGo_mem_failed (tr : Nat → Nat → Bool) (j : Nat → Nat → ℚ) :
    ∀ (messages : List (List Char)) (i k : Nat) (hk : k < messages.length),
      (∀ a < 3, tr (i + k) a = false) →
      messages.get ⟨k, hk⟩ ∈ (runGo tr j messages i).2 := by
  intro messages
  induction messages with
  | nil => intro i k hk; simp at hk
  | cons m rest ih =>
    intro i k hk hfail
    cases k with
    | zero =>
      have : (send_post (tr i) (j i) m).ok = false :=
        send_post_all_fail (tr i) (j i) m (by simpa using hfail)
      simp [runGo, this]
    | succ k2 =>
      have hk2 : k2 < rest.length := Nat.lt_of_succ_lt_succ hk
      have hmem : rest.get ⟨k2, hk2⟩ ∈ (runGo tr j rest (i + 1)).2 := by
        refine ih (i + 1) k2 hk2 ?_
        intro a ha
        have := hfail a ha
        simpa [Nat.add_assoc, Nat.add_comm 1 k2] using this
      simp only [runGo, List.get_cons_succ]
      split
      · exact hmem
      · exact List.mem_cons_of_mem _ hmem

/-- C4 — confirmed: in a batch, a message (occurring once) whose transport
send fails on all 3 attempts is appended to the persisted failure log exactly
once for that run, every message of the batch is still attempted, and the
run completes with the log extended by exactly the failed messages. -/
theorem deliver_run_failure_isolated (tr : Nat → Nat → Bool) (j : Nat → Nat → ℚ)
    (prior messages : List (List Char)) (k : Nat) (hk : k < messages.length)
    (hfail : ∀ a < 3, tr k a = false)
    (huniq : messages.count (messages.get ⟨k, hk⟩) = 1) :
    (deliverRun tr j prior messages).attempted = messages ∧
    (deliverRun tr j prior messages).failed.count (messages.get ⟨k, hk⟩) = 1 ∧
    (deliverRun tr j prior messages).failedLog =
      prior ++ (deliverRun tr j prior messages).failed := by
  have hmem : messages.get ⟨k, hk⟩ ∈ (runGo tr j messages 0).2 :=
    runGo_mem_failed tr j messages 0 k hk (by simpa using hfail)
  have hsub : List.Sublist (runGo tr j messages 0).2 messages :=
    runGo_failed_sublist tr j messages 0
  have hcount : (runGo tr j messages 0).2.count (messages.get ⟨k, hk⟩) = 1 := by
    have hle : (runGo tr j messages 0).2.count (messages.get ⟨k, hk⟩) ≤ 1 :=
      huniq ▸ hsub.count_le _
    have hpos : 0 < (runGo tr j messages 0).2.count (messages.get ⟨k, hk⟩) :=
      List.count_pos_iff.mpr hmem
    omega
  have hne : (runGo tr j messages 0).2 ≠ [] := by
    intro h
    rw [h] at hmem
    simp at hmem
  refine ⟨runGo_attempts_all tr j messages 0, hcount, ?_⟩
  simp only [deliverRun, if_neg hne]

/-- C4 — witness: a one-message batch whose sends always fail. -/
theorem deliver_run_failure_isolated_witness :
    (deliverRun (fun _ _ => false) (fun _ _ => (0 : ℚ)) [] [['a']]).attempted = [['a']] ∧
    (deliverRun (fun _ _ => false) (fun _ _ => (0 : ℚ)) [] [['a']]).failed.count ['a'] = 1 ∧
    (deliverRun (fun _ _ => false) (fun _ _ => (0 : ℚ)) [] [['a']]).failedLog =
      [] ++ (deliverRun (fun _ _ => false) (fun _ _ => (0 : ℚ)) [] [['a']]).failed :=
  deliver_run_failure_isolated (fun _ _ => false) (fun _ _ => (0 : ℚ)) [] [['a']] 0
    (by decide) (fun a _ => rfl) (by decide)

/-- Selected items of a run avoid every loaded posted title. -/
theorem mainRun_selected_not_posted (stored : Option DailyCache) (today : String)
    (rawItems : List Candidate) (fmt : Candidate → String) :
    ∀ c ∈ (mainRun stored today rawItems fmt).selected,
      c.title ∉ (mainRun stored today rawItems fmt).posted := by
  intro c hc
  have hmem : c ∈ rawItems.filter
      (fun i => i.title ∉ (mainRun stored today rawItems fmt).posted) := by
    exact List.take_subset _ _ hc
  have := (List.mem_filter.mp hmem).2
  simpa using this

/-- C5 — confirmed: with the cache written by a first run, a second run on
the same UTC date never selects a title recorded by the first; a run whose
stored cache carries a different date loads an empty posted set; every
selected title of a run is in the cache it writes; and the cache write is
the first event of the run's trace, before any send. -/
theorem daily_cache_no_reselect (stored : Option DailyCache) (today : String)
    (raw1 raw2 : List Candidate) (fmt1 fmt2 : Candidate → String) :
    (∀ c ∈ (mainRun (some (mainRun stored today raw1 fmt1).savedCache) today raw2 fmt2).selected,
      c.title ∉ (mainRun stored today raw1 fmt1).savedCache.titles) ∧
    (∀ c : DailyCache, c.date ≠ today → (mainRun (some c) today raw2 fmt2).posted = []) ∧
    (∀ c ∈ (mainRun stored today raw1 fmt1).selected,
      c.title ∈ (mainRun stored today raw1 fmt1).savedCache.titles) ∧
    mainTrace stored today raw1 fmt1 =
      RunEvent.writeCache (mainRun stored today raw1 fmt1).savedCache ::
        (mainRun stored today raw1 fmt1).messages.map RunEvent.send := by
  refine ⟨?_, ?_, ?_, rfl⟩
  · intro c hc
    have h := mainRun_selected_not_posted
      (some (mainRun stored today raw1 fmt1).savedCache) today raw2 fmt2 c hc
    simpa [mainRun] using h
  · intro c hdate
    simp [mainRun, hdate]
  · intro c hc
    simp only [mainRun, List.mem_append]
    exact Or.inr (List.mem_map.mpr ⟨c, hc, rfl⟩)

/-- C5 — witness: a concrete pair of same-day runs, and a cache from an
earlier date being reset. -/
theorem daily_cache_no_reselect_witness :
    (Candidate.mk "t2" "u2").title ∉
      (mainRun none "2025-01-01" [⟨"t1", "u1"⟩] (fun _ => "")).savedCache.titles ∧
    (mainRun (some ⟨"2024-12-31", ["x"]⟩) "2025-01-01" [⟨"t1", "u1"⟩, ⟨"t2", "u2"⟩]
      (fun _ => "")).posted = [] := by
  have h := daily_cache_no_reselect none "2025-01-01" [⟨"t1", "u1"⟩]
    [⟨"t1", "u1"⟩, ⟨"t2", "u2"⟩] (fun _ => "") (fun _ => "")
  exact ⟨h.1 ⟨"t2", "u2"⟩ (by decide), h.2.1 ⟨"2024-12-31", ["x"]⟩ (by decide)⟩

/-- C10 — confirmed: each run selects at most `POSTS_PER_DAY = 20` items for
enrichment and formatting, hence hands at most 20 messages to the delivery
engine, while `discover` may return up to 50 items (never more). -/
theorem posts_per_day_cap (stored : Option DailyCache) (today : String)
    (rawItems : List Candidate) (fmt : Candidate → String) :
    (mainRun stored today rawItems fmt).selected.length ≤ POSTS_PER_DAY ∧
    (mainRun stored today rawItems fmt).messages.length ≤ POSTS_PER_DAY ∧
    POSTS_PER_DAY = 20 ∧
    ∀ pool : List Candidate, (discover pool).length ≤ 50 := by
  refine ⟨List.length_take_le _ _, ?_, rfl, fun pool => List.length_take_le _ _⟩
  simp only [mainRun, List.length_map]
  exact List.length_take_le _ _

/-- C7 — confirmed: enriching the candidate
`{title: "Meta layoffs hit 2000 engineers", url: "https://example.com/a"}`
yields company `"Meta"` (whitelist match), country `"USA"` (not in the
India/China sub-lists) and sentiment tag `"🔴 Layoff"` (keyword `"layoff"`),
for every regex-fallback oracle, quote oracle and verb draw. -/
theorem enrich_meta_layoffs_example (regexCompany : String → Option String)
    (quote : String → Option String) (verbIdx : Nat) :
    (enrich regexCompany quote verbIdx
      ⟨"Meta layoffs hit 2000 engineers", "https://example.com/a"⟩).company = "Meta" ∧
    (enrich regexCompany quote verbIdx
      ⟨"Meta layoffs hit 2000 engineers", "https://example.com/a"⟩).country = "USA" ∧
    (enrich regexCompany quote verbIdx
      ⟨"Meta layoffs hit 2000 engineers", "https://example.com/a"⟩).tag = "🔴 Layoff" :=
  ⟨rfl, rfl, rfl⟩

/-- Sanity check: `sortedCompanies` is `KNOWN_COMPANIES` re-ordered. -/
theorem sortedCompanies_perm : List.Perm sortedCompanies KNOWN_COMPANIES := by
  decide

/-- Sanity check: `sortedCompanies` has non-increasing name lengths, as
`sorted(..., key=len, reverse=True)` produces. -/
theorem sortedCompanies_sorted :
    sortedCompanies.Pairwise (fun a b => b.length ≤ a.length) := by
  decide

/-- C6 — counterexample to the claim as stated: `hackernews` contains no
`try/except`, so a failing `get_html` propagates out of the fetcher to its
caller instead of being caught, recorded, and turned into a list. -/
theorem hackernews_propagates_error :
    hackernews (Except.error "HTTP 503") = Except.error "HTTP 503" := rfl

/-- C6 — amended claim: `google_news`, `_extract_from_site`,
`_scrape_generic_tech_news` and `reddit_scrape` catch every failing
operation inside their own bodies, record it against the source's name in
the ErrorReport, and return a list; `google_trends` also never raises but
records its failures only to the log file, leaving the ErrorReport
untouched; `hackernews` propagates fetch failures, and it is
`DiscoveryEngine.discover` that catches them and records them against
`"Hacker News"`. -/
theorem fetchers_error_isolation
    (feeds : String → Except String (List Candidate))
    (page : Except String (List (Except String (Option Candidate))))
    (fetch : String → Except String (List Candidate))
    (related : String → Except String (List String))
    (posts : String → Except String (List Candidate))
    (urls : List String) (siteUrl : String) (et : ErrorTracker) :
    (∃ out, google_news feeds et = .ok out) ∧
    (∃ out, extract_from_site siteUrl page et = .ok out) ∧
    (∃ out, scrape_generic_tech_news fetch urls et = .ok out) ∧
    (∃ out, google_trends related et = .ok out) ∧
    (∃ out, reddit_scrape posts et = .ok out) ∧
    (∀ out, google_trends related et = .ok out → out.2 = et) ∧
    (∀ e, extract_from_site siteUrl (.error e) et =
      .ok ([], logError et siteUrl ("Site scrape: " ++ e))) ∧
    (∀ e out, google_news (fun _ => .error e) et = .ok out →
      ("Google News (AI)", e) ∈ out.2.errors) ∧
    (∀ e url, scrape_generic_tech_news (fun _ => .error e) [url] et =
      .ok ([], logError et ("Generic " ++ url) ("Scrape: " ++ e))) ∧
    (∀ e out, reddit_scrape (fun _ => .error e) et = .ok out →
      ("Reddit r/MachineLearning", e) ∈ out.2.errors) ∧
    (∀ e, discoverHackernews (.error e) et = ([], logError et "Hacker News" e)) := by
  refine ⟨⟨_, rfl⟩, ?_, ⟨_, rfl⟩, ⟨_, rfl⟩, ⟨_, rfl⟩, ?_, fun e => rfl, ?_, fun e url => rfl,
    ?_, fun e => rfl⟩
  · cases page with
    | error e => exact ⟨_, rfl⟩
    | ok articles => exact ⟨_, rfl⟩
  · intro out h
    simp only [google_trends, Except.ok.injEq] at h
    rw [← h]
  · intro e out h
    simp only [google_news, GN_QUERIES, List.foldl_cons, List.foldl_nil, logError,
      Except.ok.injEq] at h
    rw [← h]
    simp
  · intro e out h
    simp only [reddit_scrape, redditSubs, List.take, List.foldl_cons, List.foldl_nil,
      logError, Except.ok.injEq] at h
    rw [← h]
    simp

/-- C6 — witness: the amended theorem at concrete failing oracles. -/
theorem fetchers_error_isolation_witness :
    (extract_from_site "https://techcrunch.com/" (.error "timeout") ⟨[], []⟩ =
      .ok ([], logError ⟨[], []⟩ "https://techcrunch.com/" ("Site scrape: " ++ "timeout"))) ∧
    (("Google News (AI)", "timeout") ∈
      ((GN_QUERIES.foldl (fun acc q =>
        match (fun _ => (.error "timeout" : Except String (List Candidate))) q with
        | .ok entries =>
          (acc.1 ++ entries.take 10,
            logSuccess acc.2 ("Google News (" ++ q ++ ")") (entries.take 10).length)
        | .error e => (acc.1, logError acc.2 ("Google News (" ++ q ++ ")") e))
        ([], (⟨[], []⟩ : ErrorTracker))).2).errors) ∧
    (discoverHackernews (.error "timeout") ⟨[], []⟩ =
      ([], logError ⟨[], []⟩ "Hacker News" "timeout")) := by
  have h := fetchers_error_isolation
    (fun _ => .error "timeout") (.error "timeout") (fun _ => .error "timeout")
    (fun _ => .error "timeout") (fun _ => .error "timeout")
    ["https://www.unite.ai/news/"] "https://techcrunch.com/" ⟨[], []⟩
  exact ⟨h.2.2.2.2.2.2.1 "timeout", h.2.2.2.2.2.2.2.1 "timeout" _ rfl,
    h.2.2.2.2.2.2.2.2.2.2 "timeout"⟩

/-- Concatenation preserves newline-freedom. -/
theorem noNL_append {a b : String} (ha : noNL a) (hb : noNL b) : noNL (a ++ b) := by
  simp only [noNL, String.data_append, List.mem_append, not_or] at *
  exact ⟨ha, hb⟩

/-- A uniform choice from a pool of newline-free strings is newline-free. -/
theorem pyChoice_noNL (pool : List String) (idx : Nat)
    (h : ∀ x ∈ pool, noNL x) : noNL (pyChoice pool idx) := by
  unfold pyChoice
  rcases hp : pool.get? (idx % pool.length) with _ | x
  · show noNL ((pool.get? (idx % pool.length)).getD "")
    rw [hp]
    decide
  · show noNL ((pool.get? (idx % pool.length)).getD "")
    rw [hp]
    exact h x (List.get?_mem hp)

/-- The dynamic emote is drawn from the emote pools, all newline-free. -/
theorem get_dynamic_emote_noNL (emoteIdx : Nat) (title tag : String) :
    noNL (get_dynamic_emote emoteIdx title tag) := by
  simp only [get_dynamic_emote]
  repeat' split
  all_goals exact pyChoice_noNL _ _ (by decide)

/-- The stock line is newline-free when the stock string and the converter's
outputs are. -/
theorem stock_line_noNL (conv : String → String × String) (stock : String)
    (hconv : noNL (conv stock).1 ∧ noNL (conv stock).2) (hstock : noNL stock) :
    noNL (stock_line conv stock) := by
  simp only [stock_line]
  split
  · exact noNL_append (noNL_append (noNL_append (noNL_append (noNL_append
      (noNL_append (by decide) hconv.1) (by decide)) hconv.2) (by decide)) hstock)
      (by decide)
  · exact noNL_append (by decide) hstock

/-- Words produced by the whitespace splitter contain no whitespace. -/
theorem pyWordsGo_ws : ∀ (l cur : List Char),
    (∀ ch ∈ cur, ch.isWhitespace = false) →
    ∀ w ∈ pyWordsGo l cur, ∀ ch ∈ w, ch.isWhitespace = false := by
  intro l
  induction l with
  | nil =>
    intro cur hcur w hw ch hch
    simp only [pyWordsGo] at hw
    split at hw
    · simp at hw
    · simp only [List.mem_singleton] at hw
      subst hw
      exact hcur ch (List.mem_reverse.mp hch)
  | cons c cs ih =>
    intro cur hcur w hw ch hch
    simp only [pyWordsGo] at hw
    split at hw
    · split at hw
      · exact ih [] (by simp) w hw ch hch
      · rcases List.mem_cons.mp hw with h | h
        · subst h
          exact hcur ch (List.mem_reverse.mp hch)
        · exact ih [] (by simp) w h ch hch
    · rename_i hcws
      refine ih (c :: cur) ?_ w hw ch hch
      intro x hx
      rcases List.mem_cons.mp hx with h | h
      · subst h
        simpa using hcws
      · exact hcur x h

/-- Every word of `pyWords` is newline-free. -/
theorem pyWords_noNL (s : String) : ∀ w ∈ pyWords s, noNL w := by
  intro w hw
  obtain ⟨l, hl, rfl⟩ := List.mem_map.mp hw
  intro hnl
  have := pyWordsGo_ws s.data [] (by simp) l hl '\n' hnl
  simp at this

/-- Joining newline-free strings with a newline-free separator is
newline-free. -/
theorem joinWith_noNL (sep : String) (hsep : noNL sep) :
    ∀ (l : List String), (∀ x ∈ l, noNL x) → noNL (joinWith sep l) := by
  intro l
  induction l with
  | nil =>
    intro _
    show noNL ""
    decide
  | cons x xs ih =>
    intro h
    cases xs with
    | nil => exact h x (by simp)
    | cons y ys =>
      show noNL (x ++ sep ++ joinWith sep (y :: ys))
      refine noNL_append (noNL_append (h x (by simp)) hsep) (ih ?_)
      intro z hz
      exact h z (List.mem_cons_of_mem _ hz)

/-- The generated description never contains a newline (its words come from
a whitespace split and everything else is fixed text). -/
theorem generate_description_noNL (title : String) :
    noNL (generate_description title "") := by
  simp only [generate_description]
  rw [if_neg (by simp)]
  split
  · refine noNL_append (joinWith_noNL " " (by decide) _ ?_) (by decide)
    intro x hx
    exact pyWords_noNL title x (List.drop_subset _ _ hx)
  · decide

/-- Left-to-right replacement preserves newline-freedom of the subject when
the replacement text is newline-free. -/
theorem replaceGo_noNL (pat rep : List Char) (hrep : '\n' ∉ rep) :
    ∀ (fuel : Nat) (s : List Char), '\n' ∉ s → '\n' ∉ replaceGo pat rep fuel s := by
  intro fuel
  induction fuel with
  | zero => intro s hs; exact hs
  | succ n ih =>
    intro s hs
    cases s with
    | nil => simp [replaceGo]
    | cons c cs =>
      simp only [replaceGo]
      split
      · intro hmem
        rcases List.mem_append.mp hmem with h | h
        · exact hrep h
        · exact ih _ (fun hx => hs (List.drop_subset _ _ hx)) h
      · intro hmem
        rcases List.mem_cons.mp hmem with h | h
        · exact hs (h ▸ List.mem_cons_self c cs)
        · exact ih cs (fun hx => hs (List.mem_cons_of_mem c hx)) h

/-- `pyReplace` preserves newline-freedom. -/
theorem pyReplace_noNL (s pat rep : String) (hs : noNL s) (hrep : noNL rep) :
    noNL (pyReplace s pat rep) :=
  replaceGo_noNL pat.data rep.data hrep s.data.length s.data hs

/-- All five context variables produced for an insight are newline-free. -/
theorem insightContext_noNL (title : String) :
    noNL (insightContext title).1 ∧ noNL (insightContext title).2.1 ∧
    noNL (insightContext title).2.2.1 ∧ noNL (insightContext title).2.2.2.1 ∧
    noNL (insightContext title).2.2.2.2 := by
  simp only [insightContext]
  repeat' split
  all_goals decide

/-- The generated insight is newline-free whenever the company name is: the
template is drawn from a fixed newline-free pool and each substituted
variable is newline-free. -/
theorem generate_insight_noNL (insightIdx : Nat) (company title : String)
    (hc : noNL company) : noNL (generate_insight insightIdx company title) := by
  obtain ⟨h1, h2, h3, h4, h5⟩ := insightContext_noNL title
  have htpl : noNL (pyChoice INSIGHT_TEMPLATES insightIdx) :=
    pyChoice_noNL _ _ (by decide)
  simp only [generate_insight, fmtInsight]
  exact pyReplace_noNL _ _ _ (pyReplace_noNL _ _ _ (pyReplace_noNL _ _ _
    (pyReplace_noNL _ _ _ (pyReplace_noNL _ _ _ (pyReplace_noNL _ _ _ htpl hc)
      h1) h2) h3) h4) h5

/-- Every tag accumulated before the padding loop comes from one of the fixed
hashtag pools (given that `sample` draws from its pool). -/
theorem rawTags_noNL (sample : List String → Nat → List String)
    (title company country : String)
    (hs : ∀ pool k x, x ∈ sample pool k → x ∈ pool) :
    ∀ x ∈ rawTags sample title company country, noNL x := by
  intro x hx
  simp only [rawTags, List.mem_append] at hx
  rcases hx with ((((h | h) | h) | h) | h)
  · split at h
    · exact (by decide : ∀ y ∈ hashtagPool "meta", noNL y) x (hs _ _ x h)
    · split at h
      · exact (by decide : ∀ y ∈ hashtagPool "google", noNL y) x (hs _ _ x h)
      · split at h
        · exact (by decide : ∀ y ∈ hashtagPool "openai", noNL y) x (hs _ _ x h)
        · simp at h
  · split at h
    · exact (by decide : ∀ y ∈ hashtagPool "ai", noNL y) x (hs _ _ x h)
    · simp at h
  · split at h
    · exact (by decide : ∀ y ∈ hashtagPool "funding", noNL y) x (hs _ _ x h)
    · simp at h
  · split at h
    · exact (by decide : ∀ y ∈ hashtagPool "layoffs", noNL y) x (hs _ _ x h)
    · simp at h
  · split at h
    · exact (by decide : ∀ y ∈ hashtagPool "china", noNL y) x (hs _ _ x h)
    · split at h
      · exact (by decide : ∀ y ∈ hashtagPool "india", noNL y) x (hs _ _ x h)
      · simp at h

/-- Padding only ever adds tags from the `"general"` pool. -/
theorem padTags_mem (sample : List String → Nat → List String)
    (hs : ∀ pool k x, x ∈ sample pool k → x ∈ pool) :
    ∀ (fuel : Nat) (tags : List String) (x : String),
      x ∈ padTags sample fuel tags → x ∈ tags ∨ x ∈ hashtagPool "general" := by
  intro fuel
  induction fuel with
  | zero => intro tags x hx; exact Or.inl hx
  | succ n ih =>
    intro tags x hx
    simp only [padTags] at hx
    split at hx
    · rcases ih _ x hx with h | h
      · rcases List.mem_append.mp h with h2 | h2
        · exact Or.inl h2
        · exact Or.inr (hs _ _ x h2)
      · exact Or.inr h
    · exact Or.inl hx

/-- The hashtag line is newline-free. -/
theorem generate_hashtags_noNL (sample : List String → Nat → List String)
    (uniq : List String → List String) (title company country : String)
    (hs : ∀ pool k x, x ∈ sample pool k → x ∈ pool)
    (hu : ∀ l x, x ∈ uniq l → x ∈ l) :
    noNL (generate_hashtags sample uniq title company country) := by
  simp only [generate_hashtags]
  refine joinWith_noNL "   " (by decide) _ ?_
  intro z hz
  obtain ⟨p, hp, rfl⟩ := List.mem_map.mp hz
  have hmem : p.2 ∈ (uniq (padTags sample 4 (rawTags sample title company country))).take 6 :=
    List.get?_mem (List.mem_enum_iff_get?.mp hp)
  have hmem2 : p.2 ∈ padTags sample 4 (rawTags sample title company country) :=
    hu _ _ (List.take_subset _ _ hmem)
  have hp2 : noNL p.2 := by
    rcases padTags_mem sample hs 4 _ p.2 hmem2 with h | h
    · exact rawTags_noNL sample title company country hs p.2 h
    · exact (by decide : ∀ y ∈ hashtagPool "general", noNL y) p.2 h
  refine noNL_append (noNL_append hp2 (by decide)) ?_
  have : ∀ y ∈ TAG_COLORS, noNL y := by decide
  rcases hcol : TAG_COLORS.get? (p.1 % TAG_COLORS.length) with _ | y
  · show noNL ((TAG_COLORS.get? (p.1 % TAG_COLORS.length)).getD "")
    rw [hcol]
    decide
  · show noNL ((TAG_COLORS.get? (p.1 % TAG_COLORS.length)).getD "")
    rw [hcol]
    exact this y (List.get?_mem hcol)

/-- The remainder returned by `afterSub` is made of characters of the
subject. -/
theorem afterSub_subset (pat : List Char) :
    ∀ (l r : List Char), afterSub pat l = some r → ∀ x ∈ r, x ∈ l := by
  intro l
  induction l with
  | nil =>
    intro r h x hx
    simp only [afterSub] at h
    split at h
    · cases h
      simp at hx
    · cases h
  | cons c cs ih =>
    intro r h x hx
    simp only [afterSub] at h
    split at h
    · cases h
      exact List.drop_subset _ _ hx
    · exact List.mem_cons_of_mem c (ih r h x hx)

/-- The shortened display url is newline-free when the url is. -/
theorem cleanUrl_noNL (url : String) (h : noNL url) : noNL (cleanUrl url) := by
  simp only [cleanUrl, urlNetlocPath]
  split
  · rcases haf : afterSub "://".data url.data with _ | rest
    · refine noNL_append (noNL_append ?_ ?_) ?_
      · exact (show noNL "" by decide)
      · intro hx
        exact h ((List.takeWhile_prefix _).subset hx)
      · exact (show noNL "..." by decide)
    · have hsub : ∀ x ∈ rest, x ∈ url.data := afterSub_subset _ _ _ haf
      refine noNL_append (noNL_append ?_ ?_) ?_
      · intro hx
        exact h (hsub _ ((List.takeWhile_prefix _).subset hx))
      · intro hx
        exact h (hsub _ ((List.dropWhile_suffix _).subset
          ((List.takeWhile_prefix _).subset hx)))
      · exact (show noNL "..." by decide)
  · exact h

/-- C9 — confirmed: whatever the outcomes of the random choices (emote,
insight template, hashtag sampling and set order) and of the external
price-conversion and date calls, the card built by `build_post` is the
newline-join of exactly 14 lines in a fixed order — headline line, blank,
price line, company/country/date line, blank, description header and block,
blank, insight header and block, blank, hashtag line, blank, source line —
so any two runs on the same enriched item produce the same line structure. -/
theorem build_post_line_structure (emoteIdx insightIdx : Nat)
    (sample : List String → Nat → List String) (uniq : List String → List String)
    (conv : String → String × String) (date : String) (d : Enriched)
    (hs : ∀ pool k x, x ∈ sample pool k → x ∈ pool)
    (hu : ∀ l x, x ∈ uniq l → x ∈ l)
    (hconv : ∀ s, noNL (conv s).1 ∧ noNL (conv s).2)
    (hhead : noNL d.headline) (hcomp : noNL d.company) (hemoji : noNL d.emoji)
    (hstock : noNL d.stock) (hurl : noNL d.url) (hdate : noNL date) :
    ∃ lines : List String,
      build_post emoteIdx insightIdx sample uniq conv date d = joinWith "\n" lines ∧
      lines.length = 14 ∧
      (∀ l ∈ lines, noNL l) ∧
      lines.getD 0 "" =
        get_dynamic_emote emoteIdx d.headline d.tag ++ " *" ++ d.headline ++ "*" ∧
      lines.getD 2 "" = stock_line conv d.stock ∧
      lines.getD 3 "" = "🏢 " ++ d.company ++ " | " ++ d.emoji ++ " | 📅 " ++ date ∧
      lines.getD 5 "" = "📝 *Description:*" ∧
      lines.getD 6 "" = generate_description d.headline "" ∧
      lines.getD 8 "" = "🧠 *Why it matters:*" ∧
      lines.getD 9 "" = generate_insight insightIdx d.company d.headline ∧
      lines.getD 11 "" = generate_hashtags sample uniq d.headline d.company d.country ∧
      lines.getD 13 "" = "🔗 Source: " ++ cleanUrl d.url := by
  refine ⟨[get_dynamic_emote emoteIdx d.headline d.tag ++ " *" ++ d.headline ++ "*",
    "", stock_line conv d.stock,
    "🏢 " ++ d.company ++ " | " ++ d.emoji ++ " | 📅 " ++ date, "",
    "📝 *Description:*", generate_description d.headline "", "",
    "🧠 *Why it matters:*", generate_insight insightIdx d.company d.headline, "",
    generate_hashtags sample uniq d.headline d.company d.country, "",
    "🔗 Source: " ++ cleanUrl d.url],
    rfl, rfl, ?_, rfl, rfl, rfl, rfl, rfl, rfl, rfl, rfl, rfl⟩
  intro l hl
  simp only [List.mem_cons, List.not_mem_nil, or_false] at hl
  rcases hl with rfl | rfl | rfl | rfl | rfl | rfl | rfl | rfl | rfl | rfl | rfl | rfl | rfl | rfl
  · exact noNL_append (noNL_append (noNL_append
      (get_dynamic_emote_noNL emoteIdx d.headline d.tag) (by decide)) hhead) (by decide)
  · decide
  · exact stock_line_noNL conv d.stock (hconv d.stock) hstock
  · exact noNL_append (noNL_append (noNL_append (noNL_append
      (noNL_append (by decide) hcomp) (by decide)) hemoji) (by decide)) hdate
  · decide
  · decide
  · exact generate_description_noNL d.headline
  · decide
  · decide
  · exact generate_insight_noNL insightIdx d.company d.headline hcomp
  · decide
  · exact generate_hashtags_noNL sample uniq d.headline d.company d.country hs hu
  · decide
  · exact noNL_append (by decide) (cleanUrl_noNL d.url hurl)

/-- C9 — witness: the line-structure theorem at a concrete enriched item and
concrete (deterministic) oracles. -/
theorem build_post_line_structure_witness :
    ∃ lines : List String,
      build_post 0 0 (fun pool k => pool.take k) (fun l => l)
        (fun _ => ("N/A", "")) "Mon | 06 October 2025"
        ⟨"Meta", "USA", "🇺🇸", "Meta Explodes — Meta layoffs hit 2000 engineers",
          "N/A", "🔴 Layoff", "https://example.com/a"⟩ = joinWith "\n" lines ∧
      lines.length = 14 ∧
      (∀ l ∈ lines, noNL l) ∧
      lines.getD 0 "" =
        get_dynamic_emote 0 "Meta Explodes — Meta layoffs hit 2000 engineers" "🔴 Layoff"
          ++ " *" ++ "Meta Explodes — Meta layoffs hit 2000 engineers" ++ "*" ∧
      lines.getD 2 "" = stock_line (fun _ => ("N/A", "")) "N/A" ∧
      lines.getD 3 "" =
        "🏢 " ++ "Meta" ++ " | " ++ "🇺🇸" ++ " | 📅 " ++ "Mon | 06 October 2025" ∧
      lines.getD 5 "" = "📝 *Description:*" ∧
      lines.getD 6 "" =
        generate_description "Meta Explodes — Meta layoffs hit 2000 engineers" "" ∧
      lines.getD 8 "" = "🧠 *Why it matters:*" ∧
      lines.getD 9 "" =
        generate_insight 0 "Meta" "Meta Explodes — Meta layoffs hit 2000 engineers" ∧
      lines.getD 11 "" = generate_hashtags (fun pool k => pool.take k) (fun l => l)
        "Meta Explodes — Meta layoffs hit 2000 engineers" "Meta" "USA" ∧
      lines.getD 13 "" = "🔗 Source: " ++ cleanUrl "https://example.com/a" :=
  build_post_line_structure 0 0 (fun pool k => pool.take k) (fun l => l)
    (fun _ => ("N/A", "")) "Mon | 06 October 2025"
    ⟨"Meta", "USA", "🇺🇸", "Meta Explodes — Meta layoffs hit 2000 engineers",
      "N/A", "🔴 Layoff", "https://example.com/a"⟩
    (fun pool k x hx => List.take_subset k pool hx)
    (fun _ _ hx => hx)
    (fun _ => ⟨show noNL "N/A" by decide, show noNL "" by decide⟩)
    (by decide) (by decide) (by decide) (by decide) (by decide) (by decide)
